import Mathlib

/-!
Verification of the `robust_scaler` crate (`src/lib.rs`): a scikit-learn
compatible RobustScaler (median centering, IQR scaling), with a pure
order-statistics kernel (`median`, `quantile`) and a small estimator API
(`fit`, `transform`, `transform_1d`, `fit_transform`, `from_json`,
`n_features`).

Modelling conventions:
* `f64` values are modelled as exact rationals `ℚ`.  All inputs under
  consideration are NaN-free (the spec makes NaN unsupported), so the
  `partial_cmp(..).unwrap()` comparator is the total order on `ℚ`.
  Float literals `0.25`, `0.5`, `0.75` are exact in binary; `1e-8` is
  modelled as the exact rational `1 / 10^8`.
* Rust panics (index out of range, assertion failures, the explicit
  panic in `transform_1d`) are modelled by the `Except Panic` monad;
  `Except.error` is the panic channel, and the `Panic` value records which
  kind of panic fired, including the data its message carries.
* `ndarray::Array2<f64>` is modelled by `Matrix2`, a row/column count plus
  a row-major list of rows; the rectangularity that `Array2` guarantees by
  construction is the predicate `Matrix2.WF`.
* The `f32` narrowing at the end of `transform_1d` is the identity on the
  exact-rational model (narrowing is a precision, not a value, concern).
-/

deriving instance DecidableEq for Except

/-- Kinds of Rust panic the library can raise.  `sizeMismatch` is the
explicit panic of `transform_1d`, whose message reads
"Input size ... does not match scaler n_features ..." and carries the two
lengths recorded here; `assertFail` is an assertion failure;
`indexOutOfBounds` is an out-of-range slice index (which is also where the
`sorted.len() - 1` underflow on an empty input surfaces). -/
inductive Panic where
  | indexOutOfBounds : Panic
  | assertFail : Panic
  | sizeMismatch (actual expected : Nat) : Panic
deriving DecidableEq

/-- Ascending sort, modelling `sorted.sort_by(|a, b| a.partial_cmp(b).unwrap())`
on NaN-free data. -/
def sortAsc (l : List ℚ) : List ℚ := l.insertionSort (· ≤ ·)

/-- The `median` helper of `lib.rs` (lines 149-158): sort a private copy,
then take the middle element (odd length) or the mean of the two middle
elements (even length).  On the empty list the even branch indexes out of
range (`sorted[n/2 - 1]` with `n = 0`), which is a panic. -/
def median (data : List ℚ) : Except Panic ℚ :=
  let sorted := sortAsc data
  let n := sorted.length
  if n % 2 = 0 then
    match sorted[n / 2 - 1]?, sorted[n / 2]? with
    | some a, some b => .ok ((a + b) / 2)
    | _, _ => .error .indexOutOfBounds
  else
    match sorted[n / 2]? with
    | some a => .ok a
    | none => .error .indexOutOfBounds

/-- The `quantile` helper of `lib.rs` (lines 165-179): assert `0 ≤ q ≤ 1`,
sort, set `index = q * (n - 1)`, `i = index.floor() as usize` (the Rust
float→usize cast saturates below at `0`, hence `Int.toNat`), and
`t = index - i`; return the last element when `i >= len - 1`, otherwise
interpolate `sorted[i] + t * (sorted[i+1] - sorted[i])`.  On the empty list
both branches index out of range, which is a panic (in the source the empty
case dies on `sorted.len() - 1` underflow / the `sorted[0]` access). -/
def quantile (data : List ℚ) (q : ℚ) : Except Panic ℚ :=
  if 0 ≤ q ∧ q ≤ 1 then
    let sorted := sortAsc data
    let index : ℚ := q * ((sorted.length : ℚ) - 1)
    let i : ℕ := (⌊index⌋).toNat
    let t : ℚ := index - (i : ℚ)
    if sorted.length - 1 ≤ i then
      match sorted[sorted.length - 1]? with
      | some v => .ok v
      | none => .error .indexOutOfBounds
    else
      match sorted[i]?, sorted[i + 1]? with
      | some a, some b => .ok (a + t * (b - a))
      | _, _ => .error .indexOutOfBounds
  else .error .assertFail

/-- The estimator state: per-feature medians (`center_`) and floored IQRs
(`scale_`). -/
structure RobustScaler where
  center : List ℚ
  scale : List ℚ
deriving DecidableEq

/-- `RobustScaler::new()`: empty center and scale. -/
def RobustScaler.new : RobustScaler := ⟨[], []⟩

/-- Model of `ndarray::Array2<f64>`: a shape plus row-major data. -/
structure Matrix2 where
  nrows : ℕ
  ncols : ℕ
  rows : List (List ℚ)
deriving DecidableEq

/-- Rectangularity, guaranteed by `Array2` by construction: the row list
has `nrows` entries and every row has `ncols` entries. -/
def Matrix2.WF (m : Matrix2) : Prop :=
  m.rows.length = m.nrows ∧ ∀ r ∈ m.rows, r.length = m.ncols

instance (m : Matrix2) : Decidable m.WF :=
  decidable_of_iff (m.rows.length = m.nrows ∧ ∀ r ∈ m.rows, r.length = m.ncols) Iff.rfl

/-- `data.column(i).to_owned()`: the `i`-th entry of each row. -/
def Matrix2.column (m : Matrix2) (c : ℕ) : List ℚ :=
  m.rows.map (fun r => r.getD c 0)

/-- Entry access `data[(r, c)]`. -/
def Matrix2.entry (m : Matrix2) (r c : ℕ) : ℚ :=
  (m.rows.getD r []).getD c 0

/-- The per-column body of `fit`'s loop: `center = median(col)`,
`q1 = quantile(col, 0.25)`, `q3 = quantile(col, 0.75)`,
`iqr = (q3 - q1).max(1e-8)`. -/
def fitColumn (col : List ℚ) : Except Panic (ℚ × ℚ) := do
  let center ← median col
  let q1 ← quantile col (1 / 4)
  let q3 ← quantile col (3 / 4)
  pure (center, max (q3 - q1) (1 / 100000000))

/-- `RobustScaler::fit` (lines 31-50): clear both parameter vectors, then
for each column push the median and floored IQR.  The prior state of the
estimator is discarded entirely, hence the unused `self` argument. -/
def RobustScaler.fit (_self : RobustScaler) (data : Matrix2) :
    Except Panic RobustScaler := do
  let ps ← (List.range data.ncols).mapM (fun i => fitColumn (data.column i))
  pure ⟨ps.map Prod.fst, ps.map Prod.snd⟩

/-- `RobustScaler::transform` (lines 59-68): `assert_eq!` both parameter
lengths against the column count (failure is a panic), then clone the data
and map each column `x ↦ (x - center[c]) / scale[c]`. -/
def RobustScaler.transform (s : RobustScaler) (data : Matrix2) :
    Except Panic Matrix2 :=
  if data.ncols = s.center.length ∧ data.ncols = s.scale.length then
    .ok ⟨data.nrows, data.ncols,
      data.rows.map (fun row =>
        (List.range data.ncols).map (fun c =>
          (row.getD c 0 - s.center.getD c 0) / s.scale.getD c 0))⟩
  else .error .assertFail

/-- `RobustScaler::transform_1d` (lines 77-88): an explicit `panic!` whose
message carries the actual and expected lengths when the input length
differs from `n_features`, otherwise the same affine map per coordinate
(the final `as f32` narrowing is the identity on the exact model). -/
def RobustScaler.transform_1d (s : RobustScaler) (input : List ℚ) :
    Except Panic (List ℚ) :=
  if input.length ≠ s.center.length then
    .error (.sizeMismatch input.length s.center.length)
  else
    .ok (((input.zip s.center).zip s.scale).map
      (fun p => (p.1.1 - p.1.2) / p.2))

/-- `RobustScaler::fit_transform` (lines 97-100): `self.fit(data);`
`self.transform(data)`.  Returns the transformed matrix together with the
post-fit estimator state. -/
def RobustScaler.fit_transform (s : RobustScaler) (data : Matrix2) :
    Except Panic (Matrix2 × RobustScaler) := do
  let s2 ← s.fit data
  let out ← s2.transform data
  pure (out, s2)

/-- `RobustScaler::n_features`: the length of `center_`. -/
def RobustScaler.n_features (s : RobustScaler) : ℕ := s.center.length

/-- The deserialized parameter record `SklearnRobustScalerParams`
(lines 182-192): fields `center_`, `scale_`, `n_features_in_`. -/
structure SklearnRobustScalerParams where
  center : List ℚ
  scale : List ℚ
  n_features_in : ℕ
deriving DecidableEq

/-- The outcome of the file-open and serde-parse stages of `from_json`,
which are outside the pure core: the file may be unreadable, the bytes may
fail to parse, or a record is produced. -/
inductive JsonSource where
  | unreadable : JsonSource
  | unparsable : JsonSource
  | parsed (p : SklearnRobustScalerParams) : JsonSource
deriving DecidableEq

/-- The error channel of `from_json`, mirroring the distinctions the
source makes: a propagated `File::open` error (`ioError`), the serde error
wrapped as `InvalidData` (`parseInvalidData`), and the two explicit
`InvalidData` validation errors with their distinct messages. -/
inductive LoadError where
  | ioError : LoadError
  | parseInvalidData : LoadError
  | centerLenMismatch : LoadError
  | scaleLenMismatch : LoadError
deriving DecidableEq

/-- Whether a `LoadError` is one of the structural-validation failures
(as opposed to an I/O or parse failure). -/
def LoadError.isStructural : LoadError → Bool
  | .centerLenMismatch => true
  | .scaleLenMismatch => true
  | _ => false

/-- `RobustScaler::from_json` (lines 114-138) after the I/O stage:
propagate open/parse failures, validate both sequence lengths against
`n_features_in_`, and on success build the estimator from the parsed
sequences verbatim. -/
def RobustScaler.from_json (src : JsonSource) : Except LoadError RobustScaler :=
  match src with
  | .unreadable => .error .ioError
  | .unparsable => .error .parseInvalidData
  | .parsed p =>
    if p.center.length ≠ p.n_features_in then .error .centerLenMismatch
    else if p.scale.length ≠ p.n_features_in then .error .scaleLenMismatch
    else .ok ⟨p.center, p.scale⟩

/-! Spec-side definitions, written from the specification text (§4.1) for
comparison against the source functions above. -/

/-- Modelled from the spec: the §4.1 quantile description — sort ascending,
`index = q * (n - 1)`, `i = floor(index)`, `t = index - i`; if `i ≥ n - 1`
return the last sorted element, else `sorted[i] + t * (sorted[i+1] - sorted[i])`.
Stated as a total function (spec domain: non-empty input, `q ∈ [0, 1]`). -/
def specQuantile (data : List ℚ) (q : ℚ) : ℚ :=
  let sorted := sortAsc data
  let n := sorted.length
  let index : ℚ := q * ((n : ℚ) - 1)
  let i : ℕ := (⌊index⌋).toNat
  let t : ℚ := index - (i : ℚ)
  if n - 1 ≤ i then sorted.getD (n - 1) 0
  else sorted.getD i 0 + t * (sorted.getD (i + 1) 0 - sorted.getD i 0)

/-- Modelled from the spec: the classical median — the middle element of
the sorted sequence for odd count, the mean of the two middle elements for
even count.  Stated as a total function (spec domain: non-empty input). -/
def specMedian (data : List ℚ) : ℚ :=
  let sorted := sortAsc data
  let n := sorted.length
  if n % 2 = 0 then (sorted.getD (n / 2 - 1) 0 + sorted.getD (n / 2) 0) / 2
  else sorted.getD (n / 2) 0

/-- Modelled from the spec: the per-column fitted parameters —
`(median, max (q3 - q1) 1e-8)`. -/
def specFitColumn (col : List ℚ) : ℚ × ℚ :=
  (specMedian col,
    max (specQuantile col (3 / 4) - specQuantile col (1 / 4)) (1 / 100000000))

example : median [1, 3, 2] = .ok 2 := by
  norm_num [median, sortAsc, List.insertionSort, List.orderedInsert]
example : median [1, 2, 3, 4] = .ok (5 / 2) := by
  norm_num [median, sortAsc, List.insertionSort, List.orderedInsert]
example : quantile [1, 3, 5] (1 / 4) = .ok 2 := by
  norm_num [quantile, sortAsc, List.insertionSort, List.orderedInsert]
example : quantile [1, 3, 5] (3 / 4) = .ok 4 := by
  norm_num [quantile, sortAsc, List.insertionSort, List.orderedInsert]
example : quantile [1, 3, 5] 1 = .ok 5 := by
  norm_num [quantile, sortAsc, List.insertionSort, List.orderedInsert]
example : median [] = .error .indexOutOfBounds := by
  norm_num [median, sortAsc, List.insertionSort]
example : quantile [] (1 / 2) = .error .indexOutOfBounds := by
  norm_num [quantile, sortAsc, List.insertionSort]
example : quantile [1] 2 = .error .assertFail := by
  norm_num [quantile]
example : RobustScaler.new.transform_1d [1] =
    .error (.sizeMismatch 1 0) := by
  norm_num [RobustScaler.transform_1d, RobustScaler.new]
/-! Basic facts about the sorting step. -/

lemma sortAsc_length (l : List ℚ) : (sortAsc l).length = l.length := by
  simp [sortAsc]

lemma sortAsc_sorted (l : List ℚ) : (sortAsc l).Sorted (· ≤ ·) :=
  List.sorted_insertionSort (· ≤ ·) l

lemma sortAsc_perm (l : List ℚ) : (sortAsc l).Perm l :=
  List.perm_insertionSort (· ≤ ·) l

lemma sortAsc_mem {l : List ℚ} {a : ℚ} : a ∈ sortAsc l ↔ a ∈ l :=
  (sortAsc_perm l).mem_iff

lemma sortAsc_length_pos {l : List ℚ} (h : l ≠ []) : 0 < (sortAsc l).length := by
  rw [sortAsc_length]
  exact List.length_pos.mpr h

lemma getElem?_eq_some_getD {l : List ℚ} {i : ℕ} (h : i < l.length) :
    l[i]? = some (l.getD i 0) := by
  simp [List.getD_eq_getElem?_getD, List.getElem?_eq_getElem h]

/-! The order-statistics kernel agrees with the spec formulas on its
specified domain (non-empty input, `q ∈ [0, 1]`). -/

lemma median_eq_spec {l : List ℚ} (h : l ≠ []) : median l = .ok (specMedian l) := by
  have hpos : 0 < (sortAsc l).length := sortAsc_length_pos h
  unfold median specMedian
  by_cases hpar : (sortAsc l).length % 2 = 0
  · have h1 : (sortAsc l).length / 2 - 1 < (sortAsc l).length := by omega
    have h2 : (sortAsc l).length / 2 < (sortAsc l).length := by omega
    simp only [hpar, if_true, getElem?_eq_some_getD h1, getElem?_eq_some_getD h2]
  · have h2 : (sortAsc l).length / 2 < (sortAsc l).length := by omega
    simp only [hpar, if_false, getElem?_eq_some_getD h2]

lemma quantile_eq_spec {l : List ℚ} {q : ℚ} (h : l ≠ []) (h0 : 0 ≤ q) (h1 : q ≤ 1) :
    quantile l q = .ok (specQuantile l q) := by
  have hpos : 0 < (sortAsc l).length := sortAsc_length_pos h
  unfold quantile specQuantile
  rw [if_pos ⟨h0, h1⟩]
  by_cases hb : (sortAsc l).length - 1 ≤ (⌊q * (((sortAsc l).length : ℚ) - 1)⌋).toNat
  · have hlt : (sortAsc l).length - 1 < (sortAsc l).length := by omega
    simp only [hb, if_true, getElem?_eq_some_getD hlt]
  · have hi : (⌊q * (((sortAsc l).length : ℚ) - 1)⌋).toNat < (sortAsc l).length := by omega
    have hi1 : (⌊q * (((sortAsc l).length : ℚ) - 1)⌋).toNat + 1 < (sortAsc l).length := by
      omega
    simp only [hb, if_false, getElem?_eq_some_getD hi, getElem?_eq_some_getD hi1]

/-- C1: for every non-empty NaN-free input and every `q ∈ [0, 1]`,
`quantile` returns exactly the spec's linear-interpolation formula: sort
ascending, `index = q * (n - 1)`, `i = floor(index)`, `t = index - i`;
the last sorted element when `i ≥ n - 1`, else
`sorted[i] + t * (sorted[i+1] - sorted[i])`. -/
theorem quantile_matches_linear_interpolation_spec
    (l : List ℚ) (q : ℚ) (h : l ≠ []) (h0 : 0 ≤ q) (h1 : q ≤ 1) :
    quantile l q = .ok (specQuantile l q) :=
  quantile_eq_spec h h0 h1

/-- Witness for C1 at `values = [3, 1, 2]`, `q = 1/2`. -/
theorem quantile_matches_linear_interpolation_spec_witness :
    ([3, 1, 2] : List ℚ) ≠ [] ∧ (0 : ℚ) ≤ 1 / 2 ∧ (1 / 2 : ℚ) ≤ 1 ∧
      quantile [3, 1, 2] (1 / 2) = .ok (specQuantile [3, 1, 2] (1 / 2)) :=
  ⟨by simp, by norm_num, by norm_num,
    quantile_matches_linear_interpolation_spec [3, 1, 2] (1 / 2)
      (by simp) (by norm_num) (by norm_num)⟩

/-- C4: for every non-empty NaN-free input, `median` returns the classical
median of the spec: the middle sorted element for odd count, the mean of
the two middle sorted elements for even count. -/
theorem median_matches_classical_spec (l : List ℚ) (h : l ≠ []) :
    median l = .ok (specMedian l) :=
  median_eq_spec h

/-- Witness for C4 at the spec's own examples `[1, 3, 2]` (odd, median 2)
and, via `specMedian`, the generic statement instantiated concretely. -/
theorem median_matches_classical_spec_witness :
    ([1, 3, 2] : List ℚ) ≠ [] ∧ median [1, 3, 2] = .ok (specMedian [1, 3, 2]) :=
  ⟨by simp, median_matches_classical_spec [1, 3, 2] (by simp)⟩

/-! Order facts used for the quantile boundary relations (C7). -/

lemma getD_mem_of_lt {s : List ℚ} {i : ℕ} (h : i < s.length) : s.getD i 0 ∈ s := by
  rw [List.getD_eq_getElem?_getD, List.getElem?_eq_getElem h]
  exact List.getElem_mem h

lemma sorted_getD_zero_le {s : List ℚ} (hs : s.Sorted (· ≤ ·)) {b : ℚ} (hb : b ∈ s) :
    s.getD 0 0 ≤ b := by
  cases s with
  | nil => cases hb
  | cons a t =>
    rcases List.mem_cons.mp hb with rfl | hbt
    · simp
    · simpa using (List.sorted_cons.mp hs).1 b hbt

lemma getD_last_cons {a : ℚ} {t : List ℚ} (h : t ≠ []) :
    (a :: t).getD ((a :: t).length - 1) 0 = t.getD (t.length - 1) 0 := by
  cases t with
  | nil => cases h rfl
  | cons c t2 => simp [List.getD_cons_succ]

lemma sorted_le_getD_last {s : List ℚ} (hs : s.Sorted (· ≤ ·)) {b : ℚ} (hb : b ∈ s) :
    b ≤ s.getD (s.length - 1) 0 := by
  induction s with
  | nil => cases hb
  | cons a t ih =>
    rcases List.mem_cons.mp hb with rfl | hbt
    · cases t with
      | nil => simp
      | cons c t2 =>
        rw [getD_last_cons (by simp)]
        exact (List.sorted_cons.mp hs).1 _
          (getD_mem_of_lt (by simp))
    · have ht : t ≠ [] := by rintro rfl; cases hbt
      rw [getD_last_cons ht]
      exact ih (List.sorted_cons.mp hs).2 hbt

lemma min?_eq_sorted_head {l : List ℚ} (h : l ≠ []) :
    l.min? = some ((sortAsc l).getD 0 0) := by
  have antisym : Std.Antisymm ((· : ℚ) ≤ ·) := ⟨fun h1 h2 => le_antisymm h1 h2⟩
  rw [List.min?_eq_some_iff (fun a => le_refl a) (fun a b => min_choice a b)
    (fun a b c => le_min_iff)]
  refine ⟨sortAsc_mem.mp (getD_mem_of_lt (sortAsc_length_pos h)), fun b hb => ?_⟩
  exact sorted_getD_zero_le (sortAsc_sorted l) (sortAsc_mem.mpr hb)

lemma max?_eq_sorted_last {l : List ℚ} (h : l ≠ []) :
    l.max? = some ((sortAsc l).getD ((sortAsc l).length - 1) 0) := by
  have antisym : Std.Antisymm ((· : ℚ) ≤ ·) := ⟨fun h1 h2 => le_antisymm h1 h2⟩
  have hpos := sortAsc_length_pos h
  rw [List.max?_eq_some_iff (fun a => le_refl a) (fun a b => max_choice a b)
    (fun a b c => max_le_iff)]
  refine ⟨sortAsc_mem.mp (getD_mem_of_lt (by omega)), fun b hb => ?_⟩
  exact sorted_le_getD_last (sortAsc_sorted l) (sortAsc_mem.mpr hb)

/-! Evaluation of the spec quantile formula at the boundary ranks. -/

lemma specQuantile_zero {l : List ℚ} (h : l ≠ []) :
    specQuantile l 0 = (sortAsc l).getD 0 0 := by
  have hpos := sortAsc_length_pos h
  unfold specQuantile
  simp only [zero_mul, Int.floor_zero, Int.toNat_zero, Nat.cast_zero, sub_zero]
  by_cases hb : (sortAsc l).length - 1 ≤ 0
  · rw [if_pos hb]
    congr 1
    omega
  · rw [if_neg hb]
    ring

lemma specQuantile_one {l : List ℚ} (h : l ≠ []) :
    specQuantile l 1 = (sortAsc l).getD ((sortAsc l).length - 1) 0 := by
  have hpos := sortAsc_length_pos h
  unfold specQuantile
  have hcast : ((sortAsc l).length : ℚ) - 1 = (((sortAsc l).length - 1 : ℕ) : ℚ) := by
    push_cast [Nat.cast_sub hpos]
    ring
  simp only [one_mul, hcast, Int.floor_natCast, Int.toNat_natCast]
  rw [if_pos (le_refl _)]

lemma specQuantile_half {l : List ℚ} (h : l ≠ []) :
    specQuantile l (1 / 2) = specMedian l := by
  have hpos := sortAsc_length_pos h
  unfold specQuantile specMedian
  rcases Nat.even_or_odd (sortAsc l).length with he | ho
  · obtain ⟨k, hk⟩ := he
    have hk2 : (sortAsc l).length = 2 * k := by omega
    have hkpos : 1 ≤ k := by omega
    have hidx : (1 / 2 : ℚ) * (((sortAsc l).length : ℚ) - 1) = (k : ℚ) - 1 / 2 := by
      rw [hk2]
      push_cast
      ring
    have hfloor : ⌊(k : ℚ) - 1 / 2⌋ = (k : ℤ) - 1 := by
      rw [Int.floor_eq_iff]
      constructor
      · push_cast
        linarith
      · push_cast
        linarith
    have htoNat : (⌊(1 / 2 : ℚ) * (((sortAsc l).length : ℚ) - 1)⌋).toNat = k - 1 := by
      rw [hidx, hfloor]
      omega
    have ht : (1 / 2 : ℚ) * (((sortAsc l).length : ℚ) - 1) - ((k - 1 : ℕ) : ℚ) = 1 / 2 := by
      rw [hidx, Nat.cast_sub hkpos]
      push_cast
      ring
    have h1 : (sortAsc l).length / 2 - 1 = k - 1 := by omega
    have h3 : k - 1 + 1 = k := by omega
    simp only [htoNat, if_neg (show ¬((sortAsc l).length - 1 ≤ k - 1) by omega),
      if_pos (show (sortAsc l).length % 2 = 0 by omega), ht, h1,
      (show (sortAsc l).length / 2 = k by omega), h3]
    ring
  · obtain ⟨k, hk⟩ := ho
    have hidx : (1 / 2 : ℚ) * (((sortAsc l).length : ℚ) - 1) = (k : ℚ) := by
      rw [hk]
      push_cast
      ring
    have htoNat : (⌊(1 / 2 : ℚ) * (((sortAsc l).length : ℚ) - 1)⌋).toNat = k := by
      rw [hidx, Int.floor_natCast, Int.toNat_natCast]
    have ht : (1 / 2 : ℚ) * (((sortAsc l).length : ℚ) - 1) - (k : ℚ) = 0 := by
      rw [hidx]
      ring
    simp only [htoNat, if_neg (show ¬((sortAsc l).length % 2 = 0) by omega), ht,
      (show (sortAsc l).length / 2 = k by omega)]
    by_cases hcase : (sortAsc l).length - 1 ≤ k
    · rw [if_pos hcase, (show (sortAsc l).length - 1 = k by omega)]
    · rw [if_neg hcase]
      ring

/-- C7: for every non-empty NaN-free input, `quantile(x, 0)` is the
minimum of `x`, `quantile(x, 1)` is the maximum of `x`, and
`quantile(x, 0.5)` returns exactly what `median(x)` returns. -/
theorem quantile_boundary_and_median_relations (l : List ℚ) (h : l ≠ []) :
    (∃ mn, l.min? = some mn ∧ quantile l 0 = .ok mn) ∧
    (∃ mx, l.max? = some mx ∧ quantile l 1 = .ok mx) ∧
    quantile l (1 / 2) = median l := by
  refine ⟨⟨(sortAsc l).getD 0 0, min?_eq_sorted_head h, ?_⟩,
    ⟨(sortAsc l).getD ((sortAsc l).length - 1) 0, max?_eq_sorted_last h, ?_⟩, ?_⟩
  · rw [quantile_eq_spec h le_rfl zero_le_one, specQuantile_zero h]
  · rw [quantile_eq_spec h zero_le_one le_rfl, specQuantile_one h]
  · rw [quantile_eq_spec h (by norm_num) (by norm_num), specQuantile_half h,
      median_eq_spec h]

/-- Witness for C7 at `x = [3, 1, 2]`. -/
theorem quantile_boundary_and_median_relations_witness :
    ([3, 1, 2] : List ℚ) ≠ [] ∧
      ((∃ mn, ([3, 1, 2] : List ℚ).min? = some mn ∧ quantile [3, 1, 2] 0 = .ok mn) ∧
        (∃ mx, ([3, 1, 2] : List ℚ).max? = some mx ∧ quantile [3, 1, 2] 1 = .ok mx) ∧
        quantile [3, 1, 2] (1 / 2) = median [3, 1, 2]) :=
  ⟨by simp, quantile_boundary_and_median_relations [3, 1, 2] (by simp)⟩

/-! Machinery for `fit` (C2, C10). -/

lemma mapM_ok {α β : Type} (f : α → Except Panic β) (g : α → β) :
    ∀ l : List α, (∀ a ∈ l, f a = .ok (g a)) → l.mapM f = .ok (l.map g) := by
  intro l
  induction l with
  | nil => intro _; rfl
  | cons a t ih =>
    intro h
    rw [List.mapM_cons, h a (List.mem_cons_self a t),
      ih (fun x hx => h x (List.mem_cons_of_mem a hx))]
    rfl

lemma fitColumn_ok {col : List ℚ} (h : col ≠ []) :
    fitColumn col = .ok (specFitColumn col) := by
  unfold fitColumn specFitColumn
  rw [median_eq_spec h, quantile_eq_spec h (by norm_num) (by norm_num),
    quantile_eq_spec h (by norm_num) (by norm_num)]
  rfl

lemma column_length {m : Matrix2} (hwf : m.WF) (c : ℕ) :
    (m.column c).length = m.nrows := by
  simp [Matrix2.column, hwf.1]

lemma column_ne_nil {m : Matrix2} (hwf : m.WF) (hr : 1 ≤ m.nrows) (c : ℕ) :
    m.column c ≠ [] := by
  intro hnil
  have := column_length hwf c
  rw [hnil] at this
  simp at this
  omega

/-- The estimator state that a successful `fit` produces, written with the
spec-side kernel formulas (to which the source kernel is proved equal). -/
def fittedScaler (m : Matrix2) : RobustScaler :=
  ⟨(List.range m.ncols).map (fun c => (specFitColumn (m.column c)).1),
   (List.range m.ncols).map (fun c => (specFitColumn (m.column c)).2)⟩

lemma fit_ok {s : RobustScaler} {m : Matrix2} (hwf : m.WF) (hr : 1 ≤ m.nrows) :
    s.fit m = .ok (fittedScaler m) := by
  unfold RobustScaler.fit fittedScaler
  rw [mapM_ok (fun i => fitColumn (m.column i)) (fun i => specFitColumn (m.column i))
    (List.range m.ncols) (fun c _ => fitColumn_ok (column_ne_nil hwf hr c))]
  simp [List.map_map, Function.comp]

lemma getD_map_range (n : ℕ) (f : ℕ → ℚ) {c : ℕ} (h : c < n) :
    ((List.range n).map f).getD c 0 = f c := by
  rw [List.getD_eq_getElem?_getD, List.getElem?_map, List.getElem?_range h]
  rfl

/-- C2: on any rectangular matrix with at least one row (and NaN-free
entries), `fit` succeeds and stores, for each column `c` independently,
`center[c] = median(column c)` and
`scale[c] = max(q3 - q1, 1e-8) > 0` (quartiles by the spec's quantile
formula), with both sequences of length `ncols`, and the result replaces
any previously fitted state (it does not depend on the prior state). -/
theorem fit_computes_median_and_floored_iqr_per_column
    (s : RobustScaler) (m : Matrix2) (hwf : m.WF) (hr : 1 ≤ m.nrows) :
    ∃ s2, s.fit m = .ok s2 ∧
      s2.center.length = m.ncols ∧ s2.scale.length = m.ncols ∧
      (∀ c < m.ncols, ∃ q1 q3,
        median (m.column c) = .ok (s2.center.getD c 0) ∧
        quantile (m.column c) (1 / 4) = .ok q1 ∧
        quantile (m.column c) (3 / 4) = .ok q3 ∧
        s2.scale.getD c 0 = max (q3 - q1) (1 / 100000000) ∧
        0 < s2.scale.getD c 0) ∧
      (∀ s3 : RobustScaler, s3.fit m = s.fit m) := by
  refine ⟨fittedScaler m, fit_ok hwf hr, by simp [fittedScaler],
    by simp [fittedScaler],
    fun c hc => ⟨specQuantile (m.column c) (1 / 4), specQuantile (m.column c) (3 / 4),
      ?_, ?_, ?_, ?_, ?_⟩, fun s3 => ?_⟩
  · rw [median_eq_spec (column_ne_nil hwf hr c), fittedScaler]
    rw [getD_map_range _ _ hc, specFitColumn]
  · exact quantile_eq_spec (column_ne_nil hwf hr c) (by norm_num) (by norm_num)
  · exact quantile_eq_spec (column_ne_nil hwf hr c) (by norm_num) (by norm_num)
  · rw [fittedScaler]
    rw [getD_map_range _ _ hc, specFitColumn]
  · rw [fittedScaler]
    rw [getD_map_range _ _ hc, specFitColumn]
    exact lt_of_lt_of_le (by norm_num) (le_max_right _ _)
  · rw [fit_ok hwf hr, fit_ok hwf hr]

/-- Witness for C2 on the 3×2 matrix `[[1,2],[3,4],[5,6]]`. -/
theorem fit_computes_median_and_floored_iqr_per_column_witness :
    (Matrix2.WF ⟨3, 2, [[1, 2], [3, 4], [5, 6]]⟩ ∧ 1 ≤ (3 : ℕ)) ∧
      ∃ s2, RobustScaler.new.fit ⟨3, 2, [[1, 2], [3, 4], [5, 6]]⟩ = .ok s2 ∧
        s2.center.length = 2 ∧ s2.scale.length = 2 ∧
        (∀ c < 2, ∃ q1 q3,
          median ((⟨3, 2, [[1, 2], [3, 4], [5, 6]]⟩ : Matrix2).column c) =
            .ok (s2.center.getD c 0) ∧
          quantile ((⟨3, 2, [[1, 2], [3, 4], [5, 6]]⟩ : Matrix2).column c) (1 / 4) =
            .ok q1 ∧
          quantile ((⟨3, 2, [[1, 2], [3, 4], [5, 6]]⟩ : Matrix2).column c) (3 / 4) =
            .ok q3 ∧
          s2.scale.getD c 0 = max (q3 - q1) (1 / 100000000) ∧
          0 < s2.scale.getD c 0) ∧
        (∀ s3 : RobustScaler,
          s3.fit ⟨3, 2, [[1, 2], [3, 4], [5, 6]]⟩ =
            RobustScaler.new.fit ⟨3, 2, [[1, 2], [3, 4], [5, 6]]⟩) :=
  ⟨⟨by constructor <;> simp [Matrix2.WF], by norm_num⟩,
    fit_computes_median_and_floored_iqr_per_column RobustScaler.new
      ⟨3, 2, [[1, 2], [3, 4], [5, 6]]⟩ (by constructor <;> simp [Matrix2.WF])
      (by norm_num)⟩

/-- C10: `fit` on a rectangular matrix with zero rows and at least one
column panics (the median kernel indexes into the empty sorted column), so
no fitted parameters are produced; on a matrix with at least one row it
returns normally with `n_features` equal to the column count. -/
theorem fit_requires_at_least_one_row (s : RobustScaler) (m : Matrix2)
    (hwf : m.WF) :
    (m.nrows = 0 → 1 ≤ m.ncols → s.fit m = .error Panic.indexOutOfBounds) ∧
    (1 ≤ m.nrows → ∃ s2, s.fit m = .ok s2 ∧ s2.n_features = m.ncols) := by
  constructor
  · intro h0 hc
    have hrows : m.rows = [] := List.length_eq_zero.mp (by rw [hwf.1, h0])
    have hcol : m.column 0 = [] := by simp [Matrix2.column, hrows]
    have hfc : fitColumn (m.column 0) = .error Panic.indexOutOfBounds := by
      rw [hcol]
      rfl
    obtain ⟨k, hk⟩ : ∃ k, m.ncols = k + 1 := ⟨m.ncols - 1, by omega⟩
    unfold RobustScaler.fit
    rw [hk, List.range_succ_eq_map, List.mapM_cons, hfc]
    rfl
  · intro hr
    exact ⟨fittedScaler m, fit_ok hwf hr, by simp [fittedScaler, RobustScaler.n_features]⟩

/-- Witness for C10 on the 0×2 matrix (no rows, two columns). -/
theorem fit_requires_at_least_one_row_witness :
    Matrix2.WF ⟨0, 2, []⟩ ∧
      (((0 : ℕ) = 0 → 1 ≤ (2 : ℕ) →
        RobustScaler.new.fit ⟨0, 2, []⟩ = .error Panic.indexOutOfBounds) ∧
      (1 ≤ (0 : ℕ) → ∃ s2, RobustScaler.new.fit ⟨0, 2, []⟩ = .ok s2 ∧
        s2.n_features = 2)) :=
  ⟨by constructor <;> simp [Matrix2.WF],
    fit_requires_at_least_one_row RobustScaler.new ⟨0, 2, []⟩
      (by constructor <;> simp [Matrix2.WF])⟩

/-! Machinery for `transform` (C3, C8). -/

lemma getD_map_lists {f : List ℚ → List ℚ} {rows : List (List ℚ)} {r : ℕ}
    (h : r < rows.length) :
    (rows.map f).getD r [] = f (rows.getD r []) := by
  rw [List.getD_eq_getElem?_getD, List.getElem?_map, List.getElem?_eq_getElem h,
    List.getD_eq_getElem?_getD, List.getElem?_eq_getElem h]
  rfl

/-- C3: for every estimator and rectangular matrix whose column count
equals the estimator's feature count (both parameter lengths), `transform`
returns a new rectangular matrix of identical shape with entry
`(r, c) = (input(r, c) - center[c]) / scale[c]`.  The model is purely
functional (the source clones the input), so the input matrix itself is
unchanged by construction. -/
theorem transform_is_affine_per_entry (s : RobustScaler) (m : Matrix2)
    (hwf : m.WF) (hc : m.ncols = s.center.length) (hs : m.ncols = s.scale.length) :
    ∃ m2, s.transform m = .ok m2 ∧ m2.nrows = m.nrows ∧ m2.ncols = m.ncols ∧
      m2.WF ∧
      ∀ r < m.nrows, ∀ c < m.ncols,
        m2.entry r c = (m.entry r c - s.center.getD c 0) / s.scale.getD c 0 := by
  unfold RobustScaler.transform
  rw [if_pos ⟨hc, hs⟩]
  refine ⟨_, rfl, rfl, rfl, ⟨by simp [hwf.1], ?_⟩, ?_⟩
  · intro row hrow
    simp only [List.mem_map] at hrow
    obtain ⟨row0, _, rfl⟩ := hrow
    simp
  · intro r hr c hcc
    unfold Matrix2.entry
    have hrlen : r < m.rows.length := by rw [hwf.1]; exact hr
    simp only [getD_map_lists hrlen, getD_map_range _ _ hcc]

/-- Witness for C3: the fitted state `center = [3, 4]`, `scale = [2, 2]`
applied to the 3×2 matrix it was fitted on. -/
theorem transform_is_affine_per_entry_witness :
    (Matrix2.WF ⟨3, 2, [[1, 2], [3, 4], [5, 6]]⟩ ∧
      (⟨3, 2, [[1, 2], [3, 4], [5, 6]]⟩ : Matrix2).ncols =
        (⟨[3, 4], [2, 2]⟩ : RobustScaler).center.length ∧
      (⟨3, 2, [[1, 2], [3, 4], [5, 6]]⟩ : Matrix2).ncols =
        (⟨[3, 4], [2, 2]⟩ : RobustScaler).scale.length) ∧
      ∃ m2, (⟨[3, 4], [2, 2]⟩ : RobustScaler).transform
            ⟨3, 2, [[1, 2], [3, 4], [5, 6]]⟩ = .ok m2 ∧
        m2.nrows = 3 ∧ m2.ncols = 2 ∧ m2.WF ∧
        ∀ r < 3, ∀ c < 2,
          m2.entry r c =
            ((⟨3, 2, [[1, 2], [3, 4], [5, 6]]⟩ : Matrix2).entry r c -
                (⟨[3, 4], [2, 2]⟩ : RobustScaler).center.getD c 0) /
              (⟨[3, 4], [2, 2]⟩ : RobustScaler).scale.getD c 0 :=
  ⟨⟨by constructor <;> simp [Matrix2.WF], by simp, by simp⟩,
    transform_is_affine_per_entry ⟨[3, 4], [2, 2]⟩ ⟨3, 2, [[1, 2], [3, 4], [5, 6]]⟩
      (by constructor <;> simp [Matrix2.WF]) (by simp) (by simp)⟩

lemma except_bind_error {ε α β : Type} {e : ε} {f : α → Except ε β} :
    (Except.error e >>= f) = Except.error e := rfl

lemma except_bind_ok {ε α β : Type} {a : α} {f : α → Except ε β} :
    (Except.ok a >>= f) = f a := rfl

lemma except_pure {ε α : Type} {a : α} :
    (pure a : Except ε α) = Except.ok a := rfl

/-- C9: `fit_transform` succeeds with result `(out, s2)` exactly when
`fit` succeeds with the fitted state `s2` and `transform` of `s2` on the
same matrix succeeds with `out` — i.e. it is the composition of `fit`
followed by `transform`, leaving the estimator in the same fitted state. -/
theorem fit_transform_is_fit_then_transform (s : RobustScaler) (m : Matrix2)
    (out : Matrix2) (s2 : RobustScaler) :
    s.fit_transform m = .ok (out, s2) ↔
      (s.fit m = .ok s2 ∧ s2.transform m = .ok out) := by
  unfold RobustScaler.fit_transform
  cases hfit : s.fit m with
  | error e =>
    rw [except_bind_error]
    constructor
    · intro h
      cases h
    · rintro ⟨h1, _⟩
      cases h1
  | ok s3 =>
    rw [except_bind_ok]
    cases htr : s3.transform m with
    | error e =>
      rw [except_bind_error]
      constructor
      · intro h
        cases h
      · rintro ⟨h1, h2⟩
        injection h1 with h1
        subst h1
        rw [htr] at h2
        cases h2
    | ok o =>
      rw [except_bind_ok, except_pure]
      constructor
      · intro h
        injection h with h
        injection h with ha hb
        subst ha
        subst hb
        exact ⟨rfl, htr⟩
      · rintro ⟨h1, h2⟩
        injection h1 with h1
        subst h1
        rw [htr] at h2
        injection h2 with h2
        subst h2
        rfl

/-- Witness for C9 on the 3×2 matrix: `fit_transform` from a fresh
estimator equals `fit` then `transform`. -/
theorem fit_transform_is_fit_then_transform_witness :
    RobustScaler.new.fit_transform ⟨3, 2, [[1, 2], [3, 4], [5, 6]]⟩ =
        .ok (⟨3, 2, [[-1, -1], [0, 0], [1, 1]]⟩, ⟨[3, 4], [2, 2]⟩) ↔
      (RobustScaler.new.fit ⟨3, 2, [[1, 2], [3, 4], [5, 6]]⟩ =
          .ok ⟨[3, 4], [2, 2]⟩ ∧
        (⟨[3, 4], [2, 2]⟩ : RobustScaler).transform ⟨3, 2, [[1, 2], [3, 4], [5, 6]]⟩ =
          .ok ⟨3, 2, [[-1, -1], [0, 0], [1, 1]]⟩) :=
  fit_transform_is_fit_then_transform RobustScaler.new
    ⟨3, 2, [[1, 2], [3, 4], [5, 6]]⟩
    ⟨3, 2, [[-1, -1], [0, 0], [1, 1]]⟩ ⟨[3, 4], [2, 2]⟩

/-- C5: a successfully parsed parameter record is rejected with a
structural-validation error exactly when `len(center_) ≠ n_features_in_`
or `len(scale_) ≠ n_features_in_`; on success the estimator carries the
parsed sequences verbatim; an unreadable or unparsable source yields an
error that is not a structural-validation error (hence distinguishable),
never a success. -/
theorem from_json_validation_contract (p : SklearnRobustScalerParams) :
    ((∃ e, RobustScaler.from_json (.parsed p) = .error e ∧ e.isStructural = true) ↔
      (p.center.length ≠ p.n_features_in ∨ p.scale.length ≠ p.n_features_in)) ∧
    (p.center.length = p.n_features_in → p.scale.length = p.n_features_in →
      RobustScaler.from_json (.parsed p) = .ok ⟨p.center, p.scale⟩) ∧
    RobustScaler.from_json .unreadable = .error .ioError ∧
    RobustScaler.from_json .unparsable = .error .parseInvalidData ∧
    LoadError.ioError.isStructural = false ∧
    LoadError.parseInvalidData.isStructural = false := by
  refine ⟨?_, ?_, rfl, rfl, rfl, rfl⟩
  · unfold RobustScaler.from_json
    by_cases h1 : p.center.length = p.n_features_in
    · by_cases h2 : p.scale.length = p.n_features_in
      · simp [h1, h2]
      · simp [h1, h2, LoadError.isStructural]
    · simp [h1, LoadError.isStructural]
  · intro h1 h2
    unfold RobustScaler.from_json
    simp [h1, h2]

/-- Witness for C5 at the record `center_ = [3, 4]`, `scale_ = [2, 2]`,
`n_features_in_ = 2`. -/
theorem from_json_validation_contract_witness :
    ((∃ e, RobustScaler.from_json (.parsed ⟨[3, 4], [2, 2], 2⟩) = .error e ∧
        e.isStructural = true) ↔
      (([3, 4] : List ℚ).length ≠ 2 ∨ ([2, 2] : List ℚ).length ≠ 2)) ∧
    (([3, 4] : List ℚ).length = 2 → ([2, 2] : List ℚ).length = 2 →
      RobustScaler.from_json (.parsed ⟨[3, 4], [2, 2], 2⟩) = .ok ⟨[3, 4], [2, 2]⟩) ∧
    RobustScaler.from_json .unreadable = .error .ioError ∧
    RobustScaler.from_json .unparsable = .error .parseInvalidData ∧
    LoadError.ioError.isStructural = false ∧
    LoadError.parseInvalidData.isStructural = false :=
  from_json_validation_contract ⟨[3, 4], [2, 2], 2⟩

/-- C6 counterexample: the claim says a `transform_1d` length mismatch is
surfaced as a typed, recoverable error result rather than an unconditional
runtime failure; but on a fresh estimator (0 features) with the 1-element
input `[1]` the source executes its explicit panic with actual length 1
and expected length 0 — in the model, the panic channel with the two
lengths, not a normal return. -/
theorem transform_1d_mismatch_is_panic_counterexample :
    RobustScaler.new.transform_1d [1] = .error (Panic.sizeMismatch 1 0) := rfl

/-- C6 as amended: a `transform_1d` length mismatch aborts with an
unconditional runtime failure (panic) whose message carries the actual and
expected lengths, rather than returning a typed recoverable error result. -/
theorem transform_1d_mismatch_panics_with_lengths (s : RobustScaler)
    (input : List ℚ) (h : input.length ≠ s.center.length) :
    s.transform_1d input = .error (Panic.sizeMismatch input.length s.center.length) := by
  unfold RobustScaler.transform_1d
  rw [if_pos h]

/-- Witness for the amended C6 at a fresh estimator and input `[1]`. -/
theorem transform_1d_mismatch_panics_with_lengths_witness :
    ([1] : List ℚ).length ≠ RobustScaler.new.center.length ∧
      RobustScaler.new.transform_1d [1] =
        .error (Panic.sizeMismatch ([1] : List ℚ).length RobustScaler.new.center.length) :=
  ⟨by simp [RobustScaler.new], transform_1d_mismatch_panics_with_lengths
    RobustScaler.new [1] (by simp [RobustScaler.new])⟩

/-- C8 counterexample: the claim says `transform` called before any fit or
load always aborts with a panic; but a fresh (never fitted) estimator has
zero features, so a matrix with one row and zero columns passes both
`assert_eq!` checks and `transform` returns normally. -/
theorem transform_unfit_returns_for_zero_columns_counterexample :
    RobustScaler.new.transform ⟨1, 0, [[]]⟩ = .ok ⟨1, 0, [[]]⟩ := rfl

/-- C8 as amended: `transform` aborts with a panic (assertion failure) and
never returns a numeric result whenever the matrix's column count differs
from the length of `center` or of `scale`; in particular, on a
never-fitted estimator (0 features) this covers every matrix with at least
one column, though a 0-column matrix trivially matches and returns. -/
theorem transform_mismatch_or_unfit_panics (s : RobustScaler) (m : Matrix2)
    (h : m.ncols ≠ s.center.length ∨ m.ncols ≠ s.scale.length) :
    s.transform m = .error Panic.assertFail := by
  unfold RobustScaler.transform
  rw [if_neg]
  rintro ⟨h1, h2⟩
  rcases h with h | h
  · exact h h1
  · exact h h2

/-- Witness for the amended C8: a fresh estimator and a 1×1 matrix. -/
theorem transform_mismatch_or_unfit_panics_witness :
    ((⟨1, 1, [[5]]⟩ : Matrix2).ncols ≠ RobustScaler.new.center.length ∨
      (⟨1, 1, [[5]]⟩ : Matrix2).ncols ≠ RobustScaler.new.scale.length) ∧
      RobustScaler.new.transform ⟨1, 1, [[5]]⟩ = .error Panic.assertFail :=
  ⟨Or.inl (by simp [RobustScaler.new]),
    transform_mismatch_or_unfit_panics RobustScaler.new ⟨1, 1, [[5]]⟩
      (Or.inl (by simp [RobustScaler.new]))⟩

set_option maxHeartbeats 1000000 in
example : RobustScaler.new.fit ⟨3, 2, [[1, 2], [3, 4], [5, 6]]⟩ =
    .ok ⟨[3, 4], [2, 2]⟩ := by
  simp only [RobustScaler.fit, Matrix2.column, List.range_succ, List.range_zero,
    List.nil_append, List.cons_append, List.mapM_cons, List.mapM_nil, List.map_cons,
    List.map_nil, List.getD_cons_zero, List.getD_cons_succ]
  norm_num [fitColumn, median, quantile, sortAsc, List.insertionSort,
    List.orderedInsert, bind, Except.bind, pure, Except.pure]
